import Mathlib

/-!
Shallow embedding of the InkSync WebSocket server core (src/src/index.ts).

The server keeps three process-wide maps:
  * `activeClients : Map<WebSocket, {userId, roomId}>` — the connection registry;
  * `roomUserMap : Map<string, Set<number>>` — the room membership index;
  * `roomShapes : Map<string, any[]>` — the shared document store.

We model a `WebSocket` handle by a natural-number connection id, a JS `Map`
by an insertion-ordered association list (`Map.set` replaces in place, keeps
iteration order; `Map.delete` removes the entry), and a JS `Set<number>` by a
duplicate-free insertion-ordered list (`Set.add` appends when absent,
`Set.delete` removes).  `readyState === WebSocket.OPEN` is modelled by
membership in an `openConns` list.  Drawing elements are opaque to the
server, so one `Elem := Nat` stands for any element value; a document slot is
`Option Elem` because JS array assignment past the end creates holes (and
`draw` can push an absent `parsed.element`), and holes serialize as `null`.

External collaborators (the Prisma authorization lookup and chat
persistence) are passed to the handlers as explicit results: `auth : Bool`
for whether the room exists and lists the user, `persist : Option Chat` for
the chat record (`none` = the create call threw).

Each handler returns the new state together with the list of
`(connection, message)` sends it performed, in order.
-/

abbrev ConnId := Nat
abbrev Elem := Nat
abbrev Chat := Nat
abbrev SigData := Nat

/-- The `{ userId: number, roomId: string }` value stored in `activeClients`. -/
structure ConnMeta where
  userId : Int
  roomId : String
deriving Repr, DecidableEq

/-- The three process-wide maps plus the set of transport-open connections. -/
structure ServerState where
  activeClients : List (ConnId × ConnMeta)
  roomUserMap : List (String × List Int)
  roomShapes : List (String × List (Option Elem))
  openConns : List ConnId
deriving Repr, DecidableEq

def initialState : ServerState := ⟨[], [], [], []⟩

/-- `Map.get`: first entry with the key. -/
def alGet {K V : Type} [DecidableEq K] (k : K) : List (K × V) → Option V
  | [] => none
  | (k', v) :: rest => if k' = k then some v else alGet k rest

/-- `Map.set`: replace in place when the key exists, else append. -/
def alSet {K V : Type} [DecidableEq K] (k : K) (v : V) : List (K × V) → List (K × V)
  | [] => [(k, v)]
  | (k', v') :: rest => if k' = k then (k, v) :: rest else (k', v') :: alSet k v rest

/-- `Map.delete`: drop the entry with the key. -/
def alDel {K V : Type} [DecidableEq K] (k : K) : List (K × V) → List (K × V)
  | [] => []
  | (k', v') :: rest => if k' = k then rest else (k', v') :: alDel k rest

/-- `Set.add`: append when absent. -/
def setAdd (x : Int) (s : List Int) : List Int :=
  if x ∈ s then s else s ++ [x]

/-- `Set.delete`. -/
def setDel (x : Int) : List Int → List Int
  | [] => []
  | y :: rest => if y = x then setDel x rest else y :: setDel x rest

/-- `recipients?.has(u)` — an absent set is falsy. -/
def inRecipients (u : Int) : Option (List Int) → Bool
  | none => false
  | some l => decide (u ∈ l)

/-- Whether `u` is in the membership set the index currently holds for `rid`. -/
def memberOf (s : ServerState) (rid : String) (u : Int) : Bool :=
  inRecipients u (alGet rid s.roomUserMap)

/-- `roomShapes.get(roomId) || []`. -/
def getShapes (rid : String) (s : ServerState) : List (Option Elem) :=
  (alGet rid s.roomShapes).getD []

/-- JS truthiness of an optional string field (`undefined` and `""` are falsy). -/
def falsyStr : Option String → Bool
  | none => true
  | some s => decide (s = "")

/-- JS truthiness of an optional numeric field (`undefined` and `0` are falsy). -/
def falsyInt : Option Int → Bool
  | none => true
  | some n => decide (n = 0)

/-- JS `arr[i] = v` on an array observed through its index sequence: a negative
`i` creates a non-index string property (invisible to length, iteration and
`JSON.stringify`), `i < length` overwrites in place, and `i ≥ length` extends
the array with holes up to `i`. -/
def jsAssign (l : List (Option Elem)) (i : Int) (v : Option Elem) : List (Option Elem) :=
  if i < 0 then l
  else if i.toNat < l.length then l.set i.toNat v
  else l ++ List.replicate (i.toNat - l.length) none ++ [v]

/-- JS `arr.splice(i, 1)`: a negative start counts from the end and clamps at
0, a start past the end removes nothing. -/
def jsSplice1 (l : List (Option Elem)) (i : Int) : List (Option Elem) :=
  let start : Nat := if i < 0 then ((l.length : Int) + i).toNat else min i.toNat l.length
  l.take start ++ l.drop (start + 1)

inductive SigType where
  | offer
  | answer
  | ice
deriving Repr, DecidableEq

/-- The outbound payloads the modelled handlers can send. -/
inductive OutMsg where
  | errorMsg (msg : String)
  | registerSuccess (roomId : String) (userId : Int)
  | userList (users : List Int)
  | messageSent (chat : Chat)
  | newMessage (chat : Chat)
  | initMsg (shapes : List (Option Elem))
  | syncMsg (shapes : List (Option Elem))
  | streamMsg (element : Option Elem) (index : Int) (color : Option String) (userId : Int)
  | webrtcMsg (t : SigType) (fromUserId : Int) (data : SigData)
deriving Repr, DecidableEq

/-- The per-connection test of the broadcast loops: not the excluded
connection, meta names the room, userId is in the recipients set, transport
open. -/
def bcond (recips : Option (List Int)) (opens : List ConnId) (rid : String)
    (exclude : Option ConnId) (p : ConnId × ConnMeta) : Bool :=
  decide (exclude ≠ some p.1) && decide (p.2.roomId = rid) &&
    inRecipients p.2.userId recips && decide (p.1 ∈ opens)

/-- The loop body shared by `broadcastToRoom` and `broadcastStreamToRoom`:
iterate `activeClients` in insertion order and send the payload to every
connection passing `bcond`. -/
def broadcastList (l : List (ConnId × ConnMeta)) (recips : Option (List Int))
    (opens : List ConnId) (rid : String) (payload : OutMsg) (exclude : Option ConnId) :
    List (ConnId × OutMsg) :=
  (l.filter (bcond recips opens rid exclude)).map (fun p => (p.1, payload))

/-- `broadcastToRoom(roomId, payload, exclude?)` (src/src/index.ts:281). -/
def broadcastToRoom (s : ServerState) (rid : String) (payload : OutMsg)
    (exclude : Option ConnId) : List (ConnId × OutMsg) :=
  broadcastList s.activeClients (alGet rid s.roomUserMap) s.openConns rid payload exclude

/-- `broadcastStreamToRoom(roomId, payload, sender?)` (src/src/index.ts:314):
the same loop, always excluding the sender. -/
def broadcastStreamToRoom (s : ServerState) (rid : String) (payload : OutMsg)
    (sender : ConnId) : List (ConnId × OutMsg) :=
  broadcastList s.activeClients (alGet rid s.roomUserMap) s.openConns rid payload (some sender)

/-- The scan inside `sendToUserInRoom` (src/src/index.ts:297): the first open
connection whose meta matches room and target user, or `none`. -/
def sendScan (l : List (ConnId × ConnMeta)) (opens : List ConnId) (rid : String)
    (target : Int) : Option ConnId :=
  match l with
  | [] => none
  | (cl, meta) :: rest =>
    if meta.roomId = rid ∧ meta.userId = target ∧ cl ∈ opens then some cl
    else sendScan rest opens rid target

def sendToUserInRoom (s : ServerState) (rid : String) (target : Int) : Option ConnId :=
  sendScan s.activeClients s.openConns rid target

/-- A new transport connection (the `wss.on("connection")` callback): the
socket becomes open; nothing is registered yet. -/
def handleConnect (c : ConnId) (s : ServerState) : ServerState :=
  { s with openConns := s.openConns ++ [c] }

/-- The `register` case (src/src/index.ts:32-60).  `auth` is the result of
the Prisma room lookup: whether the room exists and its users include the
numeric userId.  Note the handler never consults any existing meta for the
connection: `activeClients.set` overwrites. -/
def handleRegister (c : ConnId) (roomId : Option String) (userId : Option Int)
    (auth : Bool) (s : ServerState) : ServerState × List (ConnId × OutMsg) :=
  if falsyStr roomId || falsyInt userId then
    (s, [(c, .errorMsg "Missing roomId or userId")])
  else
    let rid := roomId.getD ""
    let uid := userId.getD 0
    if auth = false then
      (s, [(c, .errorMsg "Unauthorized user or room")])
    else
      let newSet := setAdd uid ((alGet rid s.roomUserMap).getD [])
      let s' := { s with
        activeClients := alSet c ⟨uid, rid⟩ s.activeClients,
        roomUserMap := alSet rid newSet s.roomUserMap }
      (s', (c, .registerSuccess rid uid) :: broadcastToRoom s' rid (.userList newSet) none)

/-- The `ws.on("close")` handler (src/src/index.ts:241-251), together with the
transport leaving the open state. -/
def handleClose (c : ConnId) (s : ServerState) : ServerState :=
  let s' :=
    match alGet c s.activeClients with
    | none => s
    | some meta =>
      let rum :=
        match alGet meta.roomId s.roomUserMap with
        | none => s.roomUserMap
        | some set =>
          let set' := setDel meta.userId set
          if set' = [] then alDel meta.roomId s.roomUserMap
          else alSet meta.roomId set' s.roomUserMap
      { s with roomUserMap := rum, activeClients := alDel c s.activeClients }
  { s' with openConns := s'.openConns.filter (fun x => x ≠ c) }

/-- The chat `message` case (src/src/index.ts:72-98).  `persist` is the
result of `prisma.chat.create`; when it throws (`none`) control reaches the
outer catch, which sends `Server error` to the sender (src/src/index.ts:233-238). -/
def handleMessage (c : ConnId) (roomId : String) (user_id : Int) (text : String)
    (persist : Option Chat) (s : ServerState) : ServerState × List (ConnId × OutMsg) :=
  match alGet c s.activeClients with
  | none => (s, [(c, .errorMsg "Client not registered")])
  | some meta =>
    if roomId ≠ meta.roomId ∨ user_id ≠ meta.userId then
      (s, [(c, .errorMsg "Invalid room or user context")])
    else
      match persist with
      | none => (s, [(c, .errorMsg "Server error")])
      | some chat =>
        (s, (c, .messageSent chat) :: broadcastToRoom s roomId (.newMessage chat) (some c))

/-- The `init` case (src/src/index.ts:156-158). -/
def handleInit (c : ConnId) (s : ServerState) : ServerState × List (ConnId × OutMsg) :=
  match alGet c s.activeClients with
  | none => (s, [(c, .errorMsg "Client not registered")])
  | some meta => (s, [(c, .initMsg (getShapes meta.roomId s))])

/-- The `clear` case (src/src/index.ts:160-163). -/
def handleClear (c : ConnId) (s : ServerState) : ServerState × List (ConnId × OutMsg) :=
  match alGet c s.activeClients with
  | none => (s, [(c, .errorMsg "Client not registered")])
  | some meta =>
    let s' := { s with roomShapes := alSet meta.roomId [] s.roomShapes }
    (s', broadcastToRoom s' meta.roomId (.syncMsg []) none)

/-- The `draw` case (src/src/index.ts:165-169): push, store, broadcast the
full sequence to everyone. -/
def handleDraw (c : ConnId) (element : Option Elem) (s : ServerState) :
    ServerState × List (ConnId × OutMsg) :=
  match alGet c s.activeClients with
  | none => (s, [(c, .errorMsg "Client not registered")])
  | some meta =>
    let shapes := getShapes meta.roomId s ++ [element]
    let s' := { s with roomShapes := alSet meta.roomId shapes s.roomShapes }
    (s', broadcastToRoom s' meta.roomId (.syncMsg shapes) none)

/-- The `stream` case (src/src/index.ts:171-178): only runs when
`typeof parsed.index === "number"`; assigns in place and broadcasts the delta
to everyone but the sender. -/
def handleStream (c : ConnId) (index : Option Int) (element : Option Elem)
    (color : Option String) (s : ServerState) : ServerState × List (ConnId × OutMsg) :=
  match alGet c s.activeClients with
  | none => (s, [(c, .errorMsg "Client not registered")])
  | some meta =>
    match index with
    | none => (s, [])
    | some i =>
      let shapes := jsAssign (getShapes meta.roomId s) i element
      let s' := { s with roomShapes := alSet meta.roomId shapes s.roomShapes }
      (s', broadcastStreamToRoom s' meta.roomId
        (.streamMsg element i color meta.userId) c)

/-- The `move` case (src/src/index.ts:180-186): same assignment as `stream`
but broadcasts the full sequence to everyone. -/
def handleMove (c : ConnId) (index : Option Int) (element : Option Elem)
    (s : ServerState) : ServerState × List (ConnId × OutMsg) :=
  match alGet c s.activeClients with
  | none => (s, [(c, .errorMsg "Client not registered")])
  | some meta =>
    match index with
    | none => (s, [])
    | some i =>
      let shapes := jsAssign (getShapes meta.roomId s) i element
      let s' := { s with roomShapes := alSet meta.roomId shapes s.roomShapes }
      (s', broadcastToRoom s' meta.roomId (.syncMsg shapes) none)

/-- The `delete` case (src/src/index.ts:188-194): `splice(index, 1)` and a
full-sequence broadcast. -/
def handleDelete (c : ConnId) (index : Option Int) (s : ServerState) :
    ServerState × List (ConnId × OutMsg) :=
  match alGet c s.activeClients with
  | none => (s, [(c, .errorMsg "Client not registered")])
  | some meta =>
    match index with
    | none => (s, [])
    | some i =>
      let shapes := jsSplice1 (getShapes meta.roomId s) i
      let s' := { s with roomShapes := alSet meta.roomId shapes s.roomShapes }
      (s', broadcastToRoom s' meta.roomId (.syncMsg shapes) none)

/-- The `webrtc-offer`/`webrtc-answer`/`webrtc-ice` case
(src/src/index.ts:199-226). -/
def handleWebrtc (c : ConnId) (t : SigType) (targetUserId : Option Int)
    (data : SigData) (s : ServerState) : ServerState × List (ConnId × OutMsg) :=
  match alGet c s.activeClients with
  | none => (s, [(c, .errorMsg "Client not registered")])
  | some meta =>
    if falsyInt targetUserId then
      (s, [(c, .errorMsg "Missing targetUserId")])
    else
      let tgt := (targetUserId.getD 0)
      match sendToUserInRoom s meta.roomId tgt with
      | some c' => (s, [(c', .webrtcMsg t meta.userId data)])
      | none => (s, [(c, .errorMsg "Target user not connected")])

/-! ### Helper lemmas about the map, set and broadcast primitives -/

theorem alGet_alSet_self {K V : Type} [DecidableEq K] (k : K) (v : V) (l : List (K × V)) :
    alGet k (alSet k v l) = some v := by
  induction l with
  | nil => simp [alGet, alSet]
  | cons hd tl ih =>
    obtain ⟨k', v'⟩ := hd
    by_cases h : k' = k
    · simp [alSet, alGet, h]
    · simp [alSet, alGet, h, ih]

theorem alGet_eq_none_of_not_mem {K V : Type} [DecidableEq K] (k : K) (l : List (K × V))
    (h : k ∉ l.map Prod.fst) : alGet k l = none := by
  induction l with
  | nil => rfl
  | cons hd tl ih =>
    obtain ⟨k', v'⟩ := hd
    simp only [List.map_cons, List.mem_cons] at h
    push_neg at h
    have hk : ¬k' = k := fun hk => h.1 hk.symm
    simp [alGet, hk, ih h.2]

theorem alGet_alDel_self {K V : Type} [DecidableEq K] (k : K) (l : List (K × V))
    (hnd : (l.map Prod.fst).Nodup) : alGet k (alDel k l) = none := by
  induction l with
  | nil => rfl
  | cons hd tl ih =>
    obtain ⟨k', v'⟩ := hd
    simp only [List.map_cons, List.nodup_cons] at hnd
    by_cases h : k' = k
    · subst h
      simpa [alDel] using alGet_eq_none_of_not_mem k' tl hnd.1
    · simp [alDel, h, alGet, ih hnd.2]

theorem mem_of_alGet {K V : Type} [DecidableEq K] {k : K} {v : V} {l : List (K × V)}
    (h : alGet k l = some v) : (k, v) ∈ l := by
  induction l with
  | nil => simp [alGet] at h
  | cons hd tl ih =>
    obtain ⟨k', v'⟩ := hd
    by_cases hk : k' = k
    · subst hk
      simp [alGet] at h
      simp [h]
    · simp only [alGet, if_neg hk] at h
      exact List.mem_cons_of_mem _ (ih h)

theorem not_mem_setDel (x : Int) (s : List Int) : x ∉ setDel x s := by
  induction s with
  | nil => simp [setDel]
  | cons y rest ih =>
    by_cases h : y = x
    · simpa [setDel, h] using ih
    · have hxy : ¬x = y := fun hxy => h hxy.symm
      simp [setDel, h, ih, hxy]

theorem mem_broadcastList {l : List (ConnId × ConnMeta)} {recips : Option (List Int)}
    {opens : List ConnId} {rid : String} {payload : OutMsg} {exclude : Option ConnId}
    {c : ConnId} {m : OutMsg} :
    (c, m) ∈ broadcastList l recips opens rid payload exclude ↔
      m = payload ∧ ∃ meta, (c, meta) ∈ l ∧ exclude ≠ some c ∧ meta.roomId = rid ∧
        inRecipients meta.userId recips = true ∧ c ∈ opens := by
  constructor
  · intro h
    rw [broadcastList, List.mem_map] at h
    obtain ⟨p, hp, heq⟩ := h
    rw [List.mem_filter] at hp
    obtain ⟨hpl, hcond⟩ := hp
    simp only [bcond, Bool.and_eq_true, decide_eq_true_eq] at hcond
    obtain ⟨⟨⟨hex, hroom⟩, hrec⟩, hop⟩ := hcond
    obtain ⟨hc, hm⟩ := Prod.mk.injEq .. ▸ heq
    subst hc; subst hm
    exact ⟨rfl, p.2, by simpa using hpl, hex, hroom, hrec, hop⟩
  · rintro ⟨rfl, meta, hmem, hex, hroom, hrec, hop⟩
    rw [broadcastList, List.mem_map]
    refine ⟨(c, meta), ?_, rfl⟩
    rw [List.mem_filter]
    refine ⟨hmem, ?_⟩
    simp [bcond, hex, hroom, hrec, hop]

theorem broadcastList_sends {l : List (ConnId × ConnMeta)} {recips : Option (List Int)}
    {opens : List ConnId} {rid : String} {payload : OutMsg} {exclude : Option ConnId}
    {q : ConnId × OutMsg} (h : q ∈ broadcastList l recips opens rid payload exclude) :
    q.2 = payload ∧ exclude ≠ some q.1 := by
  rw [broadcastList, List.mem_map] at h
  obtain ⟨p, hp, heq⟩ := h
  rw [List.mem_filter] at hp
  obtain ⟨_, hcond⟩ := hp
  simp only [bcond, Bool.and_eq_true, decide_eq_true_eq] at hcond
  subst heq
  exact ⟨rfl, hcond.1.1.1⟩

theorem sendScan_eq_none_iff {l : List (ConnId × ConnMeta)} {opens : List ConnId}
    {rid : String} {target : Int} :
    sendScan l opens rid target = none ↔
      ∀ p ∈ l, ¬(p.2.roomId = rid ∧ p.2.userId = target ∧ p.1 ∈ opens) := by
  induction l with
  | nil => simp [sendScan]
  | cons hd tl ih =>
    obtain ⟨cl, meta⟩ := hd
    by_cases h : meta.roomId = rid ∧ meta.userId = target ∧ cl ∈ opens
    · simp [sendScan, if_pos h, h]
    · simp only [sendScan, if_neg h, ih, List.mem_cons]
      constructor
      · rintro hall p (rfl | hp)
        · exact h
        · exact hall p hp
      · intro hall p hp
        exact hall p (Or.inr hp)

theorem sendScan_eq_some {l : List (ConnId × ConnMeta)} {opens : List ConnId}
    {rid : String} {target : Int} {c' : ConnId}
    (h : sendScan l opens rid target = some c') :
    ∃ meta', (c', meta') ∈ l ∧ meta'.roomId = rid ∧ meta'.userId = target ∧ c' ∈ opens := by
  induction l with
  | nil => simp [sendScan] at h
  | cons hd tl ih =>
    obtain ⟨cl, meta⟩ := hd
    by_cases hc : meta.roomId = rid ∧ meta.userId = target ∧ cl ∈ opens
    · rw [sendScan, if_pos hc] at h
      injection h with h
      subst h
      exact ⟨meta, List.mem_cons_self .., hc.1, hc.2.1, hc.2.2⟩
    · rw [sendScan, if_neg hc] at h
      obtain ⟨meta', hm, h1, h2, h3⟩ := ih h
      exact ⟨meta', List.mem_cons_of_mem _ hm, h1, h2, h3⟩

/-! ### The drawing, chat and signaling handlers never touch the registry -/

theorem handleMessage_activeClients (c : ConnId) (roomId : String) (user_id : Int)
    (text : String) (persist : Option Chat) (s : ServerState) :
    (handleMessage c roomId user_id text persist s).1.activeClients = s.activeClients := by
  unfold handleMessage
  cases alGet c s.activeClients with
  | none => rfl
  | some meta =>
    by_cases h : roomId ≠ meta.roomId ∨ user_id ≠ meta.userId
    · simp [h]
    · cases persist <;> simp [h]

theorem handleInit_activeClients (c : ConnId) (s : ServerState) :
    (handleInit c s).1.activeClients = s.activeClients := by
  unfold handleInit
  cases alGet c s.activeClients <;> rfl

theorem handleClear_activeClients (c : ConnId) (s : ServerState) :
    (handleClear c s).1.activeClients = s.activeClients := by
  unfold handleClear
  cases alGet c s.activeClients <;> rfl

theorem handleDraw_activeClients (c : ConnId) (e : Option Elem) (s : ServerState) :
    (handleDraw c e s).1.activeClients = s.activeClients := by
  unfold handleDraw
  cases alGet c s.activeClients <;> rfl

theorem handleStream_activeClients (c : ConnId) (index : Option Int) (e : Option Elem)
    (col : Option String) (s : ServerState) :
    (handleStream c index e col s).1.activeClients = s.activeClients := by
  unfold handleStream
  cases alGet c s.activeClients with
  | none => rfl
  | some meta => cases index <;> rfl

theorem handleMove_activeClients (c : ConnId) (index : Option Int) (e : Option Elem)
    (s : ServerState) :
    (handleMove c index e s).1.activeClients = s.activeClients := by
  unfold handleMove
  cases alGet c s.activeClients with
  | none => rfl
  | some meta => cases index <;> rfl

theorem handleDelete_activeClients (c : ConnId) (index : Option Int) (s : ServerState) :
    (handleDelete c index s).1.activeClients = s.activeClients := by
  unfold handleDelete
  cases alGet c s.activeClients with
  | none => rfl
  | some meta => cases index <;> rfl

theorem handleWebrtc_activeClients (c : ConnId) (t : SigType) (targetUserId : Option Int)
    (data : SigData) (s : ServerState) :
    (handleWebrtc c t targetUserId data s).1.activeClients = s.activeClients := by
  unfold handleWebrtc
  cases alGet c s.activeClients with
  | none => rfl
  | some meta =>
    by_cases h : falsyInt targetUserId = true
    · simp [h]
    · simp only [Bool.not_eq_true] at h
      cases hscan : sendToUserInRoom s meta.roomId (targetUserId.getD 0) <;> simp [h, hscan]

/-- `splice(i, 1)` with `i` at or beyond the length removes nothing. -/
theorem jsSplice1_of_length_le {l : List (Option Elem)} {i : Int}
    (h : (l.length : Int) ≤ i) : jsSplice1 l i = l := by
  have h0 : 0 ≤ i := le_trans (Int.ofNat_nonneg l.length) h
  have hlen : l.length ≤ i.toNat := by
    omega
  unfold jsSplice1
  have hneg : ¬i < 0 := not_lt.mpr h0
  simp only [hneg, if_false]
  have hmin : min i.toNat l.length = l.length := min_eq_right hlen
  rw [hmin, List.take_of_length_le (le_refl _), List.drop_eq_nil_of_le (by omega),
    List.append_nil]

/-! ### Concrete reachable states used by the counterexamples and witnesses -/

/-- Connections 0 and 1 both open and both registered as user 1 in room `"r"`
(the authorization gate answered yes twice): reached from the initial state
by two connects and two successful registrations. -/
def twoConnSameUser : ServerState :=
  (handleRegister 1 (some "r") (some 1) true
    ((handleRegister 0 (some "r") (some 1) true
      (handleConnect 1 (handleConnect 0 initialState))).1)).1

/-- Connections 0 (user 1) and 1 (user 2) both open and registered in room
`"r"`: reached from the initial state by two connects and two successful
registrations. -/
def twoUserRoom : ServerState :=
  (handleRegister 1 (some "r") (some 2) true
    ((handleRegister 0 (some "r") (some 1) true
      (handleConnect 1 (handleConnect 0 initialState))).1)).1

/-- `twoUserRoom` after the document of room `"r"` has been drawn to
`[some 10, some 20]` (two draws by connection 0). -/
def twoUserRoomDoc : ServerState :=
  (handleDraw 0 (some 20) (handleDraw 0 (some 10) twoUserRoom).1).1

/-! ### Claim theorems -/

/-- C5: a register attempt whose (userId, roomId) pair the authorization gate
does not confirm is answered with the Unauthorized error, and the whole
server state — in particular the connection registry and the room membership
index — is exactly what it was before the attempt; the connection remains
unregistered. -/
theorem register_unauthorized_no_mutation (s : ServerState) (c : ConnId)
    (rid : String) (uid : Int) (hrid : rid ≠ "") (huid : uid ≠ 0) :
    handleRegister c (some rid) (some uid) false s =
      (s, [(c, OutMsg.errorMsg "Unauthorized user or room")]) := by
  unfold handleRegister
  simp [falsyStr, falsyInt, hrid, huid]

theorem register_unauthorized_no_mutation_witness :
    handleRegister 0 (some "r") (some 3) false twoUserRoom =
      (twoUserRoom, [(0, OutMsg.errorMsg "Unauthorized user or room")]) :=
  register_unauthorized_no_mutation twoUserRoom 0 "r" 3 (by decide) (by decide)

/-- C6: a chat `message` from a registered connection whose persistence call
fails produces only the catch-all error to the sender: no `message-sent`
acknowledgment and no `new-message` broadcast, so no connection receives the
chat payload. -/
theorem message_persist_failure_no_delivery (s : ServerState) (c : ConnId)
    (meta : ConnMeta) (text : String)
    (hmeta : alGet c s.activeClients = some meta) :
    handleMessage c meta.roomId meta.userId text none s =
      (s, [(c, OutMsg.errorMsg "Server error")]) := by
  unfold handleMessage
  rw [hmeta]
  simp

theorem message_persist_failure_no_delivery_witness :
    handleMessage 0 "r" 1 "hi" none twoUserRoom =
      (twoUserRoom, [(0, OutMsg.errorMsg "Server error")]) :=
  message_persist_failure_no_delivery twoUserRoom 0 ⟨1, "r"⟩ "hi" (by decide)

/-- C10: for a registered connection, a `stream`, `move` or `delete` message
whose `index` field is absent or not a number is silently ignored: the state
is unchanged and no message is sent to anyone. -/
theorem missing_index_ignored (s : ServerState) (c : ConnId) (meta : ConnMeta)
    (e : Option Elem) (col : Option String)
    (hmeta : alGet c s.activeClients = some meta) :
    handleStream c none e col s = (s, []) ∧
    handleMove c none e s = (s, []) ∧
    handleDelete c none s = (s, []) := by
  unfold handleStream handleMove handleDelete
  rw [hmeta]
  simp

theorem missing_index_ignored_witness :
    handleStream 0 none (some 7) none twoUserRoom = (twoUserRoom, []) ∧
    handleMove 0 none (some 7) twoUserRoom = (twoUserRoom, []) ∧
    handleDelete 0 none twoUserRoom = (twoUserRoom, []) :=
  missing_index_ignored twoUserRoom 0 ⟨1, "r"⟩ (some 7) none (by decide)

/-- C8: starting from a room whose document is empty, a `draw(element)` from
one registered connection followed by an `init` from another registered
connection of the same room answers the second requester with exactly the
one-element sequence holding the drawn element. -/
theorem draw_then_init_returns_element (s : ServerState) (c1 c2 : ConnId)
    (m1 m2 : ConnMeta) (e : Elem)
    (h1 : alGet c1 s.activeClients = some m1)
    (h2 : alGet c2 s.activeClients = some m2)
    (hroom : m2.roomId = m1.roomId)
    (hempty : getShapes m1.roomId s = []) :
    (handleInit c2 (handleDraw c1 (some e) s).1).2 = [(c2, OutMsg.initMsg [some e])] := by
  have hAC : (handleDraw c1 (some e) s).1.activeClients = s.activeClients :=
    handleDraw_activeClients c1 (some e) s
  have hempty' : (alGet m1.roomId s.roomShapes).getD [] = [] := hempty
  have hshapes : getShapes m2.roomId (handleDraw c1 (some e) s).1 = [some e] := by
    unfold handleDraw
    rw [h1]
    simp [getShapes, hroom, alGet_alSet_self, hempty']
  unfold handleInit
  rw [hAC, h2]
  simp [hshapes]

theorem draw_then_init_returns_element_witness :
    (handleInit 1 (handleDraw 0 (some 9) twoUserRoom).1).2 =
      [(1, OutMsg.initMsg [some 9])] :=
  draw_then_init_returns_element twoUserRoom 0 1 ⟨1, "r"⟩ ⟨2, "r"⟩ 9
    (by decide) (by decide) (by decide) (by decide)

/-- C1 counterexample: in the reachable state `twoConnSameUser` (user 1 holds
connections 0 and 1 into room `"r"`), closing connection 0 leaves connection 1
open and registered in `"r"`, yet user 1 is no longer in the membership set —
the room entry is gone — so membership does not equal the set of userIds of
open registered connections, and closing one of several connections does not
leave the user present. -/
theorem close_drops_user_with_live_connection :
    alGet 1 (handleClose 0 twoConnSameUser).activeClients = some ⟨1, "r"⟩ ∧
    1 ∈ (handleClose 0 twoConnSameUser).openConns ∧
    memberOf (handleClose 0 twoConnSameUser) "r" 1 = false := by
  decide

/-- C1 amended: the close handler removes the closing connection's userId
from its room's membership set unconditionally — even when the user still
holds another open registered connection into the same room — dropping the
room entry if the set empties; so after any close the closed connection's
user is absent from the room's membership. -/
theorem close_removes_user_unconditionally (s : ServerState) (c : ConnId)
    (meta : ConnMeta) (hnd : (s.roomUserMap.map Prod.fst).Nodup)
    (hmeta : alGet c s.activeClients = some meta) :
    memberOf (handleClose c s) meta.roomId meta.userId = false := by
  unfold handleClose
  rw [hmeta]
  simp only [memberOf]
  cases hr : alGet meta.roomId s.roomUserMap with
  | none =>
    simp [hr, inRecipients]
  | some set =>
    by_cases hempty : setDel meta.userId set = []
    · simp [hempty, inRecipients, alGet_alDel_self meta.roomId s.roomUserMap hnd]
    · simp [hempty, inRecipients, alGet_alSet_self, not_mem_setDel,
        decide_eq_false_iff_not]

theorem close_removes_user_unconditionally_witness :
    memberOf (handleClose 0 twoConnSameUser) "r" 1 = false :=
  close_removes_user_unconditionally twoConnSameUser 0 ⟨1, "r"⟩ (by decide) (by decide)

/-- C2 counterexample: connection 0 registers as user 1 in room `"r1"` and
its meta is `(1, "r1")`; a second register message as user 2 in room `"r2"`
(authorized) then changes the connection's meta to `(2, "r2")`, so the meta
is not immutable once set. -/
theorem re_register_changes_meta :
    alGet 0 ((handleRegister 0 (some "r1") (some 1) true
        (handleConnect 0 initialState)).1).activeClients = some ⟨1, "r1"⟩ ∧
    alGet 0 ((handleRegister 0 (some "r2") (some 2) true
        ((handleRegister 0 (some "r1") (some 1) true
          (handleConnect 0 initialState)).1)).1).activeClients = some ⟨2, "r2"⟩ := by
  decide

/-- C2 amended: a connection's meta can change after registration, but only
through another successful register, which overwrites it with the newly
authorized pair; every non-register message handler leaves the connection
registry — hence every attached meta — untouched. -/
theorem meta_changes_only_by_register (s : ServerState) (c : ConnId) (rid : String)
    (uid : Int) (hrid : rid ≠ "") (huid : uid ≠ 0) :
    alGet c ((handleRegister c (some rid) (some uid) true s).1).activeClients =
      some ⟨uid, rid⟩ ∧
    (∀ c2 roomId user_id text persist,
      (handleMessage c2 roomId user_id text persist s).1.activeClients = s.activeClients) ∧
    (∀ c2, (handleInit c2 s).1.activeClients = s.activeClients) ∧
    (∀ c2, (handleClear c2 s).1.activeClients = s.activeClients) ∧
    (∀ c2 e, (handleDraw c2 e s).1.activeClients = s.activeClients) ∧
    (∀ c2 index e col, (handleStream c2 index e col s).1.activeClients = s.activeClients) ∧
    (∀ c2 index e, (handleMove c2 index e s).1.activeClients = s.activeClients) ∧
    (∀ c2 index, (handleDelete c2 index s).1.activeClients = s.activeClients) ∧
    (∀ c2 t target d, (handleWebrtc c2 t target d s).1.activeClients = s.activeClients) := by
  refine ⟨?_, fun c2 roomId user_id text persist =>
      handleMessage_activeClients c2 roomId user_id text persist s,
    fun c2 => handleInit_activeClients c2 s,
    fun c2 => handleClear_activeClients c2 s,
    fun c2 e => handleDraw_activeClients c2 e s,
    fun c2 index e col => handleStream_activeClients c2 index e col s,
    fun c2 index e => handleMove_activeClients c2 index e s,
    fun c2 index => handleDelete_activeClients c2 index s,
    fun c2 t target d => handleWebrtc_activeClients c2 t target d s⟩
  unfold handleRegister
  simp [falsyStr, falsyInt, hrid, huid, alGet_alSet_self]

theorem meta_changes_only_by_register_witness :
    alGet 0 ((handleRegister 0 (some "r2") (some 5) true twoUserRoom).1).activeClients =
      some ⟨5, "r2"⟩ :=
  (meta_changes_only_by_register twoUserRoom 0 "r2" 5 (by decide) (by decide)).1

/-- C3 counterexample: in the reachable state `twoUserRoom` the document of
room `"r"` is empty, yet a `stream` from connection 0 with index 5 —
discontinuous from the length 0 — is not rejected: no error is sent, the
document is mutated (padded with holes up to index 5), and the delta is
broadcast to the other member. -/
theorem stream_discontinuous_index_not_rejected :
    getShapes "r" twoUserRoom = [] ∧
    getShapes "r" (handleStream 0 (some 5) (some 7) none twoUserRoom).1 =
      [none, none, none, none, none, some 7] ∧
    (handleStream 0 (some 5) (some 7) none twoUserRoom).2 =
      [(1, OutMsg.streamMsg (some 7) 5 none 1)] := by
  decide

/-- C3 amended: a `stream` from a registered connection with any numeric
index is accepted without an InvalidIndex condition: the room's document
becomes the JS assignment at that index (in-place overwrite when in range,
hole padding when the index exceeds the length, unchanged for a negative
index), and the only messages sent are the delta to connections other than
the sender — never an error. -/
theorem stream_accepts_any_numeric_index (s : ServerState) (c : ConnId)
    (meta : ConnMeta) (i : Int) (e : Option Elem) (col : Option String)
    (hmeta : alGet c s.activeClients = some meta) :
    getShapes meta.roomId (handleStream c (some i) e col s).1 =
      jsAssign (getShapes meta.roomId s) i e ∧
    ∀ q ∈ (handleStream c (some i) e col s).2,
      q.2 = OutMsg.streamMsg e i col meta.userId ∧ q.1 ≠ c := by
  constructor
  · unfold handleStream
    rw [hmeta]
    simp [getShapes, alGet_alSet_self]
  · intro q hq
    unfold handleStream at hq
    rw [hmeta] at hq
    simp only [broadcastStreamToRoom] at hq
    have hs := broadcastList_sends hq
    exact ⟨hs.1, fun hqc => hs.2 (by rw [hqc])⟩

theorem stream_accepts_any_numeric_index_witness :
    getShapes "r" (handleStream 0 (some 5) (some 7) none twoUserRoom).1 =
      jsAssign (getShapes "r" twoUserRoom) 5 (some 7) ∧
    ∀ q ∈ (handleStream 0 (some 5) (some 7) none twoUserRoom).2,
      q.2 = OutMsg.streamMsg (some 7) 5 none 1 ∧ q.1 ≠ 0 :=
  stream_accepts_any_numeric_index twoUserRoom 0 ⟨1, "r"⟩ 5 (some 7) none (by decide)

/-- C4 counterexample: in the reachable state `twoUserRoomDoc` the document
of room `"r"` is `[10, 20]`; `delete` with the out-of-range numeric index −1
does not leave the sequence unchanged — JS `splice(-1, 1)` counts from the
end and removes the last element. -/
theorem delete_negative_index_mutates :
    getShapes "r" twoUserRoomDoc = [some 10, some 20] ∧
    getShapes "r" (handleDelete 0 (some (-1)) twoUserRoomDoc).1 = [some 10] := by
  decide

/-- C4 amended: for a registered connection, `delete` with a numeric index at
or beyond the current length leaves the sequence unchanged, produces no
error, and still broadcasts a sync of the unchanged sequence to every open
member of the room (negative indices instead wrap from the end per JS
`splice`).  On a sequence of length 1, `delete(0)` twice empties the
sequence and the second call is such a broadcasting no-op. -/
theorem delete_index_ge_length_noop (s : ServerState) (c : ConnId)
    (meta : ConnMeta) (i : Int)
    (hmeta : alGet c s.activeClients = some meta)
    (hi : ((getShapes meta.roomId s).length : Int) ≤ i) :
    getShapes meta.roomId (handleDelete c (some i) s).1 = getShapes meta.roomId s ∧
    (∀ q ∈ (handleDelete c (some i) s).2,
      q.2 = OutMsg.syncMsg (getShapes meta.roomId s)) ∧
    ∀ c' meta', (c', meta') ∈ s.activeClients → meta'.roomId = meta.roomId →
      memberOf s meta.roomId meta'.userId = true → c' ∈ s.openConns →
      (c', OutMsg.syncMsg (getShapes meta.roomId s)) ∈ (handleDelete c (some i) s).2 := by
  have hsp : jsSplice1 (getShapes meta.roomId s) i = getShapes meta.roomId s :=
    jsSplice1_of_length_le hi
  have hsp' : jsSplice1 ((alGet meta.roomId s.roomShapes).getD []) i =
      (alGet meta.roomId s.roomShapes).getD [] := hsp
  refine ⟨?_, ?_, ?_⟩
  · unfold handleDelete
    rw [hmeta]
    simp [getShapes, alGet_alSet_self, hsp']
  · intro q hq
    unfold handleDelete at hq
    rw [hmeta] at hq
    simp only [broadcastToRoom, hsp] at hq
    exact (broadcastList_sends hq).1
  · intro c' meta' hc' hroom' hmem' hopen'
    unfold handleDelete
    rw [hmeta]
    simp only [broadcastToRoom, hsp]
    exact mem_broadcastList.mpr ⟨rfl, meta', hc', by simp, hroom', hmem', hopen'⟩

theorem delete_index_ge_length_noop_witness :
    getShapes "r" (handleDelete 0 (some 5) twoUserRoomDoc).1 =
      getShapes "r" twoUserRoomDoc ∧
    (∀ q ∈ (handleDelete 0 (some 5) twoUserRoomDoc).2,
      q.2 = OutMsg.syncMsg (getShapes "r" twoUserRoomDoc)) ∧
    ∀ c' meta', (c', meta') ∈ twoUserRoomDoc.activeClients → meta'.roomId = "r" →
      memberOf twoUserRoomDoc "r" meta'.userId = true → c' ∈ twoUserRoomDoc.openConns →
      (c', OutMsg.syncMsg (getShapes "r" twoUserRoomDoc)) ∈
        (handleDelete 0 (some 5) twoUserRoomDoc).2 :=
  delete_index_ge_length_noop twoUserRoomDoc 0 ⟨1, "r"⟩ 5 (by decide) (by decide)

/-- C9: for a registered sender, a signaling message without `targetUserId`
is answered with the MissingFields error before any lookup; with a (truthy)
target present, if some open connection's meta matches the sender's room and
the target user, the relay sends `{type, fromUserId, data}` to exactly one
such connection (the singleton output), and if no such connection exists the
sender gets the TargetNotConnected error. -/
theorem webrtc_relay_behavior (s : ServerState) (c : ConnId) (meta : ConnMeta)
    (t : SigType) (d : SigData)
    (hmeta : alGet c s.activeClients = some meta) :
    handleWebrtc c t none d s = (s, [(c, OutMsg.errorMsg "Missing targetUserId")]) ∧
    ∀ tgt : Int, tgt ≠ 0 →
      ((∀ p ∈ s.activeClients,
          ¬(p.2.roomId = meta.roomId ∧ p.2.userId = tgt ∧ p.1 ∈ s.openConns)) →
        handleWebrtc c t (some tgt) d s =
          (s, [(c, OutMsg.errorMsg "Target user not connected")])) ∧
      ((∃ p ∈ s.activeClients,
          p.2.roomId = meta.roomId ∧ p.2.userId = tgt ∧ p.1 ∈ s.openConns) →
        ∃ c' meta',
          (handleWebrtc c t (some tgt) d s).2 = [(c', OutMsg.webrtcMsg t meta.userId d)] ∧
          (c', meta') ∈ s.activeClients ∧ meta'.roomId = meta.roomId ∧
          meta'.userId = tgt ∧ c' ∈ s.openConns) := by
  refine ⟨?_, fun tgt htgt => ⟨?_, ?_⟩⟩
  · unfold handleWebrtc
    rw [hmeta]
    simp [falsyInt]
  · intro hnone
    have hscan : sendToUserInRoom s meta.roomId tgt = none :=
      sendScan_eq_none_iff.mpr hnone
    have hf : falsyInt (some tgt) = false := by simp [falsyInt, htgt]
    unfold handleWebrtc
    rw [hmeta]
    simp [hf, hscan]
  · intro hex
    cases hscan : sendToUserInRoom s meta.roomId tgt with
    | none =>
      exfalso
      obtain ⟨p, hp, hcond⟩ := hex
      exact (sendScan_eq_none_iff.mp hscan) p hp hcond
    | some c' =>
      obtain ⟨meta', hm, h1, h2, h3⟩ := sendScan_eq_some hscan
      refine ⟨c', meta', ?_, hm, h1, h2, h3⟩
      have hf : falsyInt (some tgt) = false := by simp [falsyInt, htgt]
      unfold handleWebrtc
      rw [hmeta]
      simp [hf, hscan]

theorem webrtc_relay_behavior_witness :
    handleWebrtc 0 SigType.offer none 5 twoUserRoom =
      (twoUserRoom, [(0, OutMsg.errorMsg "Missing targetUserId")]) ∧
    handleWebrtc 0 SigType.offer (some 3) 5 twoUserRoom =
      (twoUserRoom, [(0, OutMsg.errorMsg "Target user not connected")]) ∧
    ∃ c' meta',
      (handleWebrtc 0 SigType.offer (some 2) 5 twoUserRoom).2 =
        [(c', OutMsg.webrtcMsg SigType.offer 1 5)] ∧
      (c', meta') ∈ twoUserRoom.activeClients ∧ meta'.roomId = "r" ∧
      meta'.userId = 2 ∧ c' ∈ twoUserRoom.openConns := by
  have h := webrtc_relay_behavior twoUserRoom 0 ⟨1, "r"⟩ SigType.offer 5 (by decide)
  exact ⟨h.1, (h.2 3 (by decide)).1 (by decide), (h.2 2 (by decide)).2 (by decide)⟩

/-- C7: for a registered sender and any other open registered member of its
room present in the membership set, a `stream` delta is delivered to that
member and never to the sender, while the `sync` payloads of `draw`, `move`
and `clear` are delivered both to the sender and to that member. -/
theorem stream_excludes_sender_sync_includes_all (s : ServerState) (c c' : ConnId)
    (meta meta' : ConnMeta)
    (hmeta : alGet c s.activeClients = some meta)
    (hopen : c ∈ s.openConns)
    (hmem : memberOf s meta.roomId meta.userId = true)
    (hc' : (c', meta') ∈ s.activeClients)
    (hne : c' ≠ c)
    (hroom' : meta'.roomId = meta.roomId)
    (hmem' : memberOf s meta.roomId meta'.userId = true)
    (hopen' : c' ∈ s.openConns) :
    (∀ i e col,
      (c', OutMsg.streamMsg e i col meta.userId) ∈ (handleStream c (some i) e col s).2 ∧
      ∀ q ∈ (handleStream c (some i) e col s).2, q.1 ≠ c) ∧
    (∀ e,
      (c, OutMsg.syncMsg (getShapes meta.roomId s ++ [e])) ∈ (handleDraw c e s).2 ∧
      (c', OutMsg.syncMsg (getShapes meta.roomId s ++ [e])) ∈ (handleDraw c e s).2) ∧
    (∀ i e,
      (c, OutMsg.syncMsg (jsAssign (getShapes meta.roomId s) i e)) ∈
        (handleMove c (some i) e s).2 ∧
      (c', OutMsg.syncMsg (jsAssign (getShapes meta.roomId s) i e)) ∈
        (handleMove c (some i) e s).2) ∧
    ((c, OutMsg.syncMsg []) ∈ (handleClear c s).2 ∧
     (c', OutMsg.syncMsg []) ∈ (handleClear c s).2) := by
  have hcmem : (c, meta) ∈ s.activeClients := mem_of_alGet hmeta
  have hxc : (some c : Option ConnId) ≠ some c' := fun h => hne (Option.some.inj h).symm
  have hnc : (none : Option ConnId) ≠ some c := fun h => Option.noConfusion h
  have hnc' : (none : Option ConnId) ≠ some c' := fun h => Option.noConfusion h
  refine ⟨fun i e col => ⟨?_, ?_⟩, fun e => ⟨?_, ?_⟩, fun i e => ⟨?_, ?_⟩, ?_, ?_⟩
  · unfold handleStream
    rw [hmeta]
    simp only [broadcastStreamToRoom]
    exact mem_broadcastList.mpr ⟨rfl, meta', hc', hxc, hroom', hmem', hopen'⟩
  · intro q hq
    unfold handleStream at hq
    rw [hmeta] at hq
    simp only [broadcastStreamToRoom] at hq
    have hs := broadcastList_sends hq
    exact fun hqc => hs.2 (by rw [hqc])
  · unfold handleDraw
    rw [hmeta]
    simp only [broadcastToRoom]
    exact mem_broadcastList.mpr ⟨rfl, meta, hcmem, hnc, rfl, hmem, hopen⟩
  · unfold handleDraw
    rw [hmeta]
    simp only [broadcastToRoom]
    exact mem_broadcastList.mpr ⟨rfl, meta', hc', hnc', hroom', hmem', hopen'⟩
  · unfold handleMove
    rw [hmeta]
    simp only [broadcastToRoom]
    exact mem_broadcastList.mpr ⟨rfl, meta, hcmem, hnc, rfl, hmem, hopen⟩
  · unfold handleMove
    rw [hmeta]
    simp only [broadcastToRoom]
    exact mem_broadcastList.mpr ⟨rfl, meta', hc', hnc', hroom', hmem', hopen'⟩
  · unfold handleClear
    rw [hmeta]
    simp only [broadcastToRoom]
    exact mem_broadcastList.mpr ⟨rfl, meta, hcmem, hnc, rfl, hmem, hopen⟩
  · unfold handleClear
    rw [hmeta]
    simp only [broadcastToRoom]
    exact mem_broadcastList.mpr ⟨rfl, meta', hc', hnc', hroom', hmem', hopen'⟩

theorem stream_excludes_sender_sync_includes_all_witness :
    (1, OutMsg.streamMsg (some 7) 0 none 1) ∈
      (handleStream 0 (some 0) (some 7) none twoUserRoom).2 ∧
    (0, OutMsg.syncMsg (getShapes "r" twoUserRoom ++ [some 7])) ∈
      (handleDraw 0 (some 7) twoUserRoom).2 ∧
    (1, OutMsg.syncMsg (getShapes "r" twoUserRoom ++ [some 7])) ∈
      (handleDraw 0 (some 7) twoUserRoom).2 ∧
    (0, OutMsg.syncMsg (jsAssign (getShapes "r" twoUserRoom) 0 (some 7))) ∈
      (handleMove 0 (some 0) (some 7) twoUserRoom).2 ∧
    (0, OutMsg.syncMsg []) ∈ (handleClear 0 twoUserRoom).2 ∧
    (1, OutMsg.syncMsg []) ∈ (handleClear 0 twoUserRoom).2 := by
  have h := stream_excludes_sender_sync_includes_all twoUserRoom 0 1 ⟨1, "r"⟩ ⟨2, "r"⟩
    (by decide) (by decide) (by decide) (by decide) (by decide) (by decide)
    (by decide) (by decide)
  exact ⟨(h.1 0 (some 7) none).1, (h.2.1 (some 7)).1, (h.2.1 (some 7)).2,
    (h.2.2.1 0 (some 7)).1, h.2.2.2.1, h.2.2.2.2⟩
